import Mathlib

/-!
Verification of the `untestable-code` teaching repository.

The repository is a corpus of small JavaScript (and Python) snippets, each
shown in an "untestable" style and a "testable" refactor.  This file embeds
the snippets the claims are about as Lean definitions, faithful to the
JavaScript source, and proves the claimed properties:

* `private-method-complexity-anti-patterns/{testable,untestable}.js` —
  `PaymentProcessor` with `validateCard`, `calculateRisk`, `processPayment`;
* `complex-logic-anti-patterns/untestable.js` — `calculateOrderStatus`
  (untestable method and testable pure function);
* `error-handling-anti-patterns/testable.js` — `Database.findOne` and
  `UserService.getUser` with `UserError` / `DatabaseError`;
* `configuration-anti-patterns` testable snippet — `ConfigSchema`, `Config`,
  `ConfigManager`;
* `non-deterministic-anti-patterns/untestable.js` — the `processQueue` /
  `addToQueue` pair, modelled as a step relation over interleavings.

Numbers are modelled as exact rationals (`ℚ`); JavaScript exceptions become
`Except`; `null` / missing fields become `Option`.
-/

/-! ## Card info: the JS object passed to `PaymentProcessor`

A JS `cardInfo` argument may be `null`/`undefined` (modelled by wrapping in
`Option`), its `number` field may be absent or a non-string (`Option String`,
`none` when `typeof cardInfo.number !== 'string'`), and its `country` field
likewise. -/

structure CardInfo where
  number : Option String
  country : Option String
deriving DecidableEq

/-- The per-index digit transform of the simplified Luhn loop in
`validateCard`: `parseInt` the character, double it when the 0-based index is
even, subtract 9 when the doubled value exceeds 9. -/
def luhnStep (i : Nat) (c : Char) : Nat :=
  let digit := c.toNat - '0'.toNat
  let digit := if i % 2 == 0 then digit * 2 else digit
  if digit > 9 then digit - 9 else digit

/-- The `sum` accumulated by the `for (let i = 0; i < 16; i++)` loop of
`validateCard`, indexing the card-number string positionally as the JS loop
does. -/
def luhnSum (n : String) : Nat :=
  ((List.range 16).map (fun i => luhnStep i (n.toList.getD i '0'))).sum

namespace PaymentProcessor

/-- `PaymentProcessor.validateCard` from
`private-method-complexity-anti-patterns/testable.js` (lines 34–50):
rejects a null `cardInfo`, a non-string or non-16-length `number`, a
`number` failing `/^\d{16}$/`, and finally checks the simplified Luhn sum
modulo 10. -/
def validateCard (cardInfo : Option CardInfo) : Bool :=
  match cardInfo with
  | none => false
  | some ci =>
    match ci.number with
    | none => false
    | some n =>
      if n.length ≠ 16 then false
      else if ¬ n.toList.all Char.isDigit then false
      else luhnSum n % 10 == 0

end PaymentProcessor

namespace UntestablePaymentProcessor

/-- The private `#validateCard` from
`private-method-complexity-anti-patterns/untestable.js` (lines 33–50); its
body is character-for-character the body of the testable static method. -/
def validateCard (cardInfo : Option CardInfo) : Bool :=
  match cardInfo with
  | none => false
  | some ci =>
    match ci.number with
    | none => false
    | some n =>
      if n.length ≠ 16 then false
      else if ¬ n.toList.all Char.isDigit then false
      else luhnSum n % 10 == 0

end UntestablePaymentProcessor

/-! ### The claim-side card-validity predicate (C1)

Phrased from the claim's words: `cardInfo` is non-null, `number` is a string
of exactly 16 characters, every character is a decimal digit, and the
Luhn-style checksum over the characters themselves is divisible by 10. -/

/-- Claim-side checksum: walk the characters of the number with their
0-based positions and sum the transformed digits. -/
def claimChecksum (n : String) : Nat :=
  (n.toList.enum.map (fun p => luhnStep p.1 p.2)).sum

/-- Claim-side validity predicate for C1, following the claim's wording. -/
def ClaimValidCard (cardInfo : Option CardInfo) : Prop :=
  ∃ ci n, cardInfo = some ci ∧ ci.number = some n ∧
    n.length = 16 ∧ (∀ c ∈ n.toList, c.isDigit) ∧ claimChecksum n % 10 = 0

instance : DecidablePred ClaimValidCard := fun cardInfo =>
  match cardInfo with
  | none => .isFalse (by rintro ⟨ci, n, h, -⟩; exact Option.noConfusion h)
  | some ci =>
    match hn : ci.number with
    | none => .isFalse (by
        rintro ⟨ci', n, h, hn', -⟩
        rw [Option.some_inj] at h; subst h
        rw [hn] at hn'; exact Option.noConfusion hn')
    | some n =>
      if h : n.length = 16 ∧ (∀ c ∈ n.toList, c.isDigit) ∧ claimChecksum n % 10 = 0 then
        .isTrue ⟨ci, n, rfl, hn, h.1, h.2.1, h.2.2⟩
      else
        .isFalse (by
          rintro ⟨ci', n', h', hn', hrest⟩
          rw [Option.some_inj] at h'; subst h'
          rw [hn] at hn'; rw [Option.some_inj] at hn'; subst hn'
          exact h hrest)

/-- Summing a function of index and entry over `List.range l.length` with
positional lookup agrees with summing it over `List.enumFrom k l`, the
positions shifted by `k`. -/
theorem sum_range_getD_eq_sum_enumFrom (l : List Char) :
    ∀ (k : Nat) (f : Nat → Char → Nat),
      ((List.range l.length).map (fun i => f (k + i) (l.getD i '0'))).sum
        = ((List.enumFrom k l).map (fun p => f p.1 p.2)).sum := by
  induction l with
  | nil => intro k f; rfl
  | cons c t ih =>
    intro k f
    rw [List.length_cons, List.range_succ_eq_map]
    simp only [List.map_cons, List.map_map, List.sum_cons, List.enumFrom_cons,
      List.getD_cons_zero, Nat.add_zero]
    have hfe : ((fun i => f (k + i) ((c :: t).getD i '0')) ∘ (· + 1))
        = fun i => f (k + 1 + i) (t.getD i '0') := by
      funext i
      simp only [Function.comp_apply, List.getD_cons_succ]
      congr 1
      omega
    rw [hfe, ih (k + 1)]

theorem luhnSum_eq_claimChecksum (n : String) (h : n.length = 16) :
    luhnSum n = claimChecksum n := by
  have hl : n.toList.length = 16 := h
  unfold luhnSum claimChecksum
  have h0 : ∀ i, luhnStep i = luhnStep (0 + i) := by intro i; rw [Nat.zero_add]
  rw [← hl, List.enum]
  calc ((List.range n.toList.length).map
          (fun i => luhnStep i (n.toList.getD i '0'))).sum
      = ((List.range n.toList.length).map
          (fun i => luhnStep (0 + i) (n.toList.getD i '0'))).sum := by
        simp [Nat.zero_add]
    _ = ((List.enumFrom 0 n.toList).map (fun p => luhnStep p.1 p.2)).sum :=
        sum_range_getD_eq_sum_enumFrom n.toList 0 luhnStep

/-- C1: `PaymentProcessor` card validation — the testable static
`validateCard` and the identical untestable private `#validateCard` —
returns `true` exactly when `cardInfo` is non-null, its `number` is a
16-character all-digit string, and the simplified Luhn checksum (double at
even 0-based indices, subtract 9 above 9, sum) is divisible by 10; in
particular it accepts `'4539578763621486'` and rejects
`'1234567890123456'`. -/
theorem validateCard_iff_claim :
    (∀ cardInfo, (PaymentProcessor.validateCard cardInfo = true ↔ ClaimValidCard cardInfo)
      ∧ UntestablePaymentProcessor.validateCard cardInfo
          = PaymentProcessor.validateCard cardInfo)
    ∧ PaymentProcessor.validateCard (some ⟨some "4539578763621486", some "US"⟩) = true
    ∧ PaymentProcessor.validateCard (some ⟨some "1234567890123456", some "US"⟩) = false := by
  refine ⟨fun cardInfo => ⟨?_, rfl⟩, by decide, by decide⟩
  cases cardInfo with
  | none =>
    constructor
    · intro h; simp [PaymentProcessor.validateCard] at h
    · rintro ⟨ci, n, h, -⟩; exact Option.noConfusion h
  | some c =>
    cases hn : c.number with
    | none =>
      constructor
      · intro h; simp [PaymentProcessor.validateCard, hn] at h
      · rintro ⟨ci', n, hc, hn', -⟩
        rw [Option.some_inj] at hc; subst hc
        rw [hn] at hn'; exact Option.noConfusion hn'
    | some n =>
      simp only [PaymentProcessor.validateCard, hn]
      by_cases hlen : n.length = 16
      · by_cases hdig : n.toList.all Char.isDigit = true
        · rw [if_neg (by simp [hlen]), if_neg (fun hc => hc hdig)]
          constructor
          · intro h
            refine ⟨c, n, rfl, hn, hlen, ?_, ?_⟩
            · intro ch hch; exact List.all_eq_true.mp hdig ch hch
            · rw [← luhnSum_eq_claimChecksum n hlen]
              simpa using h
          · rintro ⟨ci', n', hc, hn', hlen', hdig', hsum'⟩
            rw [Option.some_inj] at hc; subst hc
            rw [hn, Option.some_inj] at hn'; subst hn'
            rw [luhnSum_eq_claimChecksum n hlen]
            simp [hsum']
        · rw [if_neg (by simp [hlen]), if_pos (by simpa using hdig)]
          constructor
          · intro h; exact absurd h (by simp)
          · rintro ⟨ci', n', hc, hn', hlen', hdig', -⟩
            rw [Option.some_inj] at hc; subst hc
            rw [hn, Option.some_inj] at hn'; subst hn'
            exact absurd (List.all_eq_true.mpr hdig') hdig
      · rw [if_pos hlen]
        constructor
        · intro h; exact absurd h (by simp)
        · rintro ⟨ci', n', hc, hn', hlen', -⟩
          rw [Option.some_inj] at hc; subst hc
          rw [hn, Option.some_inj] at hn'; subst hn'
          exact absurd hlen' hlen

/-! ## `complex-logic-anti-patterns/untestable.js`: order status

The order objects carry more fields than `calculateOrderStatus` reads; the
model keeps an `id` and a `total` so that "orders differing only in
priority" is a non-trivial relation.  `paymentResult.method` is compared
with `=== 'credit_card'` (a possibly-absent string field) and
`inventoryResult.available` is used as a boolean. -/

structure Order where
  id : String
  total : ℚ
  priority : Option String

structure PaymentResult where
  success : Bool
  id : String
  method : Option String

structure InventoryResult where
  success : Bool
  available : Bool

namespace UntestableOrderProcessor

/-- `OrderProcessor.calculateOrderStatus` from
`complex-logic-anti-patterns/untestable.js` (lines 113–144), nested-if for
nested-if. -/
def calculateOrderStatus (order : Order) (paymentResult : PaymentResult)
    (inventoryResult : InventoryResult) : String :=
  if order.priority = some "high" then
    if paymentResult.method = some "credit_card" then
      if inventoryResult.available then "processing" else "backordered"
    else
      if inventoryResult.available then "pending" else "cancelled"
  else
    if paymentResult.method = some "credit_card" then
      if inventoryResult.available then "processing" else "backordered"
    else
      if inventoryResult.available then "pending" else "cancelled"

end UntestableOrderProcessor

/-- The testable pure function `calculateOrderStatus` from the same file
(lines 267–276): binds the three tests, then selects with conditionals. -/
def calculateOrderStatus (order : Order) (paymentResult : PaymentResult)
    (inventoryResult : InventoryResult) : String :=
  let isHighPriority : Bool := order.priority == some "high"
  let isCreditCard : Bool := paymentResult.method == some "credit_card"
  let isAvailable : Bool := inventoryResult.available
  if isHighPriority then
    if isCreditCard then (if isAvailable then "processing" else "backordered")
    else (if isAvailable then "pending" else "cancelled")
  else
    if isCreditCard then (if isAvailable then "processing" else "backordered")
    else (if isAvailable then "pending" else "cancelled")

/-- The order status as a function of the two tests the code actually
consults: is the payment method `'credit_card'`, is the inventory
available. -/
def statusOf (isCreditCard isAvailable : Bool) : String :=
  if isCreditCard then (if isAvailable then "processing" else "backordered")
  else (if isAvailable then "pending" else "cancelled")

/-- C2: the testable pure `calculateOrderStatus` returns the same status
string as the untestable `OrderProcessor.calculateOrderStatus` on every
input triple. -/
theorem calculateOrderStatus_refactor_eq :
    ∀ (order : Order) (paymentResult : PaymentResult)
      (inventoryResult : InventoryResult),
      UntestableOrderProcessor.calculateOrderStatus order paymentResult inventoryResult
        = calculateOrderStatus order paymentResult inventoryResult := by
  intro o p i
  unfold UntestableOrderProcessor.calculateOrderStatus calculateOrderStatus
  by_cases hp : o.priority = some "high" <;>
    by_cases hm : p.method = some "credit_card" <;>
      cases hi : i.available <;>
        simp [hp, hm, hi]

/-- C8: `calculateOrderStatus` (untestable method and testable refactor) is
independent of `order.priority` — two orders differing only in priority get
the same status — and the status is a function of `paymentResult.method`
and `inventoryResult.available` alone, always one of `'processing'`,
`'backordered'`, `'pending'`, `'cancelled'`. -/
theorem calculateOrderStatus_priority_independent :
    (∀ (o₁ o₂ : Order) (p : PaymentResult) (i : InventoryResult),
      o₁.id = o₂.id → o₁.total = o₂.total →
      UntestableOrderProcessor.calculateOrderStatus o₁ p i
          = UntestableOrderProcessor.calculateOrderStatus o₂ p i
        ∧ calculateOrderStatus o₁ p i = calculateOrderStatus o₂ p i)
    ∧ (∀ (o : Order) (p : PaymentResult) (i : InventoryResult),
        UntestableOrderProcessor.calculateOrderStatus o p i
            = statusOf (p.method == some "credit_card") i.available
          ∧ calculateOrderStatus o p i
            = statusOf (p.method == some "credit_card") i.available)
    ∧ (∀ b₁ b₂ : Bool,
        statusOf b₁ b₂ ∈ (["processing", "backordered", "pending", "cancelled"] : List String)) := by
  have key : ∀ (o : Order) (p : PaymentResult) (i : InventoryResult),
      UntestableOrderProcessor.calculateOrderStatus o p i
          = statusOf (p.method == some "credit_card") i.available
        ∧ calculateOrderStatus o p i
          = statusOf (p.method == some "credit_card") i.available := by
    intro o p i
    unfold UntestableOrderProcessor.calculateOrderStatus calculateOrderStatus statusOf
    by_cases hp : o.priority = some "high" <;>
      by_cases hm : p.method = some "credit_card" <;>
        cases hi : i.available <;>
          simp [hp, hm, hi]
  refine ⟨fun o₁ o₂ p i _ _ => ?_, key, by decide⟩
  rw [(key o₁ p i).1, (key o₁ p i).2, (key o₂ p i).1, (key o₂ p i).2]
  exact ⟨rfl, rfl⟩

/-- Witness for C8 at concrete inputs: a high-priority and a no-priority
order with the same id and total get the same status. -/
theorem calculateOrderStatus_priority_independent_witness :
    UntestableOrderProcessor.calculateOrderStatus ⟨"o1", 10, some "high"⟩
        ⟨true, "p1", some "credit_card"⟩ ⟨true, true⟩
      = UntestableOrderProcessor.calculateOrderStatus ⟨"o1", 10, none⟩
        ⟨true, "p1", some "credit_card"⟩ ⟨true, true⟩ :=
  (calculateOrderStatus_priority_independent.1 ⟨"o1", 10, some "high"⟩
    ⟨"o1", 10, none⟩ ⟨true, "p1", some "credit_card"⟩ ⟨true, true⟩ rfl rfl).1

/-! ## `private-method-complexity-anti-patterns`: risk and payment

The testable `PaymentProcessor` instance state: the injected gateway, the
injected random source (`Unit → ℚ` models the thunk `this.random`), and the
optional injected risk check (`null` becomes `none`).  `α` is the result
type of `paymentGateway.charge`. -/

/-- Does `s` start with the prefix `p`?  Models both the JS regex test
`/^1234/.test(s)` and `s.startsWith(p)`, phrased on the character lists so
that it evaluates by kernel reduction. -/
def strStartsWith (s p : String) : Bool :=
  List.isPrefixOf p.toList s.toList

structure TestablePaymentProcessor (α : Type) where
  paymentGateway : String → ℚ → CardInfo → α
  random : Unit → ℚ
  riskCheck : Option (String → ℚ → CardInfo → ℚ)

namespace TestablePaymentProcessor

/-- `calculateRisk` from
`private-method-complexity-anti-patterns/testable.js` (lines 55–68).  When
`cardInfo.number` is absent, `/^1234/.test(cardInfo.number)` coerces
`undefined` to the string `"undefined"`, which the model mirrors with
`getD "undefined"`. -/
def calculateRisk (self : TestablePaymentProcessor α)
    (userId : String) (amount : ℚ) (cardInfo : CardInfo) : ℚ :=
  let risk : ℚ := 0
  let risk := if amount > 1000 then risk + 0.5 else risk
  let risk := if cardInfo.country ≠ some "US" then risk + 0.2 else risk
  let risk := if strStartsWith (cardInfo.number.getD "undefined") "1234" then risk + 0.3 else risk
  let risk := if strStartsWith userId "test" then risk + 0.1 else risk
  let risk :=
    match self.riskCheck with
    | some riskCheck => risk + riskCheck userId amount cardInfo
    | none => if self.random () > 0.95 then risk + 0.2 else risk
  min risk 1

/-- `processPayment` from the same file (lines 20–29): invalid card throws,
then a risk score above `0.7` throws, otherwise the gateway's `charge`
result is returned.  Thrown `Error`s become `Except.error` on the message. -/
def processPayment (self : TestablePaymentProcessor α)
    (userId : String) (amount : ℚ) (cardInfo : Option CardInfo) : Except String α :=
  match cardInfo with
  | none => .error "Invalid card information"
  | some ci =>
    if ¬ PaymentProcessor.validateCard (some ci) then .error "Invalid card information"
    else
      let riskScore := self.calculateRisk userId amount ci
      if riskScore > 0.7 then .error "High risk transaction"
      else .ok (self.paymentGateway userId amount ci)

end TestablePaymentProcessor

namespace UntestablePaymentProcessor

/-- The private `#calculateRisk` from
`private-method-complexity-anti-patterns/untestable.js` (lines 55–65); the
value drawn from the non-injectable `Math.random()` call is made an
explicit `mathRandom` argument. -/
def calculateRisk (mathRandom : ℚ)
    (userId : String) (amount : ℚ) (cardInfo : CardInfo) : ℚ :=
  let risk : ℚ := 0
  let risk := if amount > 1000 then risk + 0.5 else risk
  let risk := if cardInfo.country ≠ some "US" then risk + 0.2 else risk
  let risk := if strStartsWith (cardInfo.number.getD "undefined") "1234" then risk + 0.3 else risk
  let risk := if strStartsWith userId "test" then risk + 0.1 else risk
  let risk := if mathRandom > 0.95 then risk + 0.2 else risk
  min risk 1

end UntestablePaymentProcessor

/-- The deterministic part of the risk score: the increments taken from the
amount, the card country, the card-number prefix and the userId. -/
def baseRisk (userId : String) (amount : ℚ) (cardInfo : CardInfo) : ℚ :=
  (if amount > 1000 then 0.5 else 0)
    + (if cardInfo.country ≠ some "US" then 0.2 else 0)
    + (if strStartsWith (cardInfo.number.getD "undefined") "1234" then 0.3 else 0)
    + (if strStartsWith userId "test" then 0.1 else 0)

/-- C3: with a non-null injected `riskCheck`, the testable `calculateRisk`
is deterministic and independent of the injected random source: two
processors sharing the `riskCheck` but with arbitrary different gateways
and random functions compute equal scores, and the score is
`min (baseRisk + riskCheck userId amount cardInfo) 1`. -/
theorem calculateRisk_riskCheck_deterministic :
    ∀ (α : Type) (g₁ g₂ : String → ℚ → CardInfo → α) (r₁ r₂ : Unit → ℚ)
      (rc : String → ℚ → CardInfo → ℚ) (userId : String) (amount : ℚ)
      (cardInfo : CardInfo),
      TestablePaymentProcessor.calculateRisk ⟨g₁, r₁, some rc⟩ userId amount cardInfo
          = TestablePaymentProcessor.calculateRisk ⟨g₂, r₂, some rc⟩ userId amount cardInfo
        ∧ TestablePaymentProcessor.calculateRisk ⟨g₁, r₁, some rc⟩ userId amount cardInfo
          = min (baseRisk userId amount cardInfo + rc userId amount cardInfo) 1 := by
  intro α g₁ g₂ r₁ r₂ rc userId amount cardInfo
  refine ⟨rfl, ?_⟩
  unfold TestablePaymentProcessor.calculateRisk baseRisk
  by_cases h1 : amount > 1000 <;>
    by_cases h2 : cardInfo.country ≠ some "US" <;>
      by_cases h3 : strStartsWith (cardInfo.number.getD "undefined") "1234" = true <;>
        by_cases h4 : strStartsWith userId "test" = true <;>
          simp [h1, h2, h3, h4]

/-- C9: on every input and every outcome of the random check, the risk
score of the untestable `#calculateRisk` and of the testable
`calculateRisk` without an injected `riskCheck` lies in `[0, 1]`. -/
theorem calculateRisk_bounds :
    ∀ (mathRandom : ℚ) (userId : String) (amount : ℚ) (cardInfo : CardInfo)
      (α : Type) (g : String → ℚ → CardInfo → α) (r : Unit → ℚ),
      (0 ≤ UntestablePaymentProcessor.calculateRisk mathRandom userId amount cardInfo
        ∧ UntestablePaymentProcessor.calculateRisk mathRandom userId amount cardInfo ≤ 1)
      ∧ (0 ≤ TestablePaymentProcessor.calculateRisk ⟨g, r, none⟩ userId amount cardInfo
        ∧ TestablePaymentProcessor.calculateRisk ⟨g, r, none⟩ userId amount cardInfo ≤ 1) := by
  intro mathRandom userId amount cardInfo α g r
  refine ⟨⟨le_min ?_ (by norm_num), min_le_right _ _⟩,
    ⟨le_min ?_ (by norm_num), min_le_right _ _⟩⟩ <;>
    split_ifs <;> norm_num

/-- C4: `processPayment` throws `'Invalid card information'` exactly when
`validateCard` rejects the card; on a valid card it throws
`'High risk transaction'` exactly when `calculateRisk` exceeds `0.7`; and
otherwise it returns exactly the gateway's `charge` result. -/
theorem processPayment_spec :
    ∀ (α : Type) (p : TestablePaymentProcessor α) (userId : String) (amount : ℚ)
      (cardInfo : Option CardInfo),
      (p.processPayment userId amount cardInfo = .error "Invalid card information"
        ↔ PaymentProcessor.validateCard cardInfo = false)
      ∧ (∀ ci, cardInfo = some ci → PaymentProcessor.validateCard cardInfo = true →
          (p.processPayment userId amount cardInfo = .error "High risk transaction"
            ↔ p.calculateRisk userId amount ci > 0.7))
      ∧ (∀ ci, cardInfo = some ci → PaymentProcessor.validateCard cardInfo = true →
          ¬ p.calculateRisk userId amount ci > 0.7 →
          p.processPayment userId amount cardInfo
            = .ok (p.paymentGateway userId amount ci)) := by
  intro α p userId amount cardInfo
  cases cardInfo with
  | none =>
    refine ⟨?_, ?_, ?_⟩
    · simp [TestablePaymentProcessor.processPayment, PaymentProcessor.validateCard]
    · intro ci hci; exact absurd hci (by simp)
    · intro ci hci; exact absurd hci (by simp)
  | some c =>
    by_cases hv : PaymentProcessor.validateCard (some c) = true
    · by_cases hr : p.calculateRisk userId amount c > 0.7
      · have hpp : p.processPayment userId amount (some c)
            = .error "High risk transaction" := by
          simp [TestablePaymentProcessor.processPayment, hv, hr]
        refine ⟨?_, ?_, ?_⟩
        · simp [hpp, hv]
        · intro ci hci hv'
          rw [Option.some_inj] at hci; subst hci
          simp [hpp, hr]
        · intro ci hci hv' hr'
          rw [Option.some_inj] at hci; subst hci
          exact absurd hr hr'
      · have hpp : p.processPayment userId amount (some c)
            = .ok (p.paymentGateway userId amount c) := by
          simp [TestablePaymentProcessor.processPayment, hv, hr]
        refine ⟨?_, ?_, ?_⟩
        · simp [hpp, hv]
        · intro ci hci hv'
          rw [Option.some_inj] at hci; subst hci
          simp [hpp, hr]
        · intro ci hci hv' hr'
          rw [Option.some_inj] at hci; subst hci
          exact hpp
    · have hvf : PaymentProcessor.validateCard (some c) = false := by
        revert hv; cases PaymentProcessor.validateCard (some c) <;> simp
      have hpp : p.processPayment userId amount (some c)
          = .error "Invalid card information" := by
        simp [TestablePaymentProcessor.processPayment, hvf]
      refine ⟨?_, ?_, ?_⟩
      · simp [hpp, hvf]
      · intro ci hci hv'; exact absurd hv' hv
      · intro ci hci hv'; exact absurd hv' hv

/-- Witness for C4: a valid low-risk payment on a concrete processor
returns the gateway's charge result. -/
theorem processPayment_spec_witness :
    TestablePaymentProcessor.processPayment
        ⟨fun _ _ _ => "charged", fun _ => 0.5, none⟩ "user1" 100
        (some ⟨some "4539578763621486", some "US"⟩)
      = .ok "charged" :=
  (processPayment_spec String ⟨fun _ _ _ => "charged", fun _ => 0.5, none⟩
      "user1" 100 (some ⟨some "4539578763621486", some "US"⟩)).2.2
    ⟨some "4539578763621486", some "US"⟩ rfl (by decide)
    (by
      have h3 : strStartsWith "4539578763621486" "1234" = false := by decide
      have h4 : strStartsWith "user1" "test" = false := by decide
      simp only [TestablePaymentProcessor.calculateRisk, h3, h4]
      norm_num [h3])

/-! ## `error-handling-anti-patterns/testable.js`: `Database` / `UserService`

JS exceptions are values of `JsError`: the file's custom `UserError`
(message, code, optional cause) and `DatabaseError` (message, optional
cause) classes, plus an `other` constructor for foreign errors such as the
driver's.  A fallible call is an `Except JsError` value. -/

inductive JsError where
  | userError (message code : String) (cause : Option JsError)
  | databaseError (message : String) (cause : Option JsError)
  | other (message : String)

/-- The `error instanceof UserError` test in `getUser`'s catch block. -/
def JsError.isUserError : JsError → Bool
  | .userError .. => true
  | _ => false

/-- A user document; only identity matters to the claims. -/
structure User where
  id : String
deriving DecidableEq

namespace ErrorBoundaryDatabase

/-- `Database.findOne` from `error-handling-anti-patterns/testable.js`
(lines 52–62): the raw driver outcome (a document option, or a thrown
error) is passed explicitly as `raw`; a thrown error is wrapped in a
`DatabaseError` naming the collection. -/
def findOne (collection : String) (raw : Except JsError (Option User)) :
    Except JsError (Option User) :=
  match raw with
  | .ok v => .ok v
  | .error e =>
    .error (.databaseError ("Failed to find document in " ++ collection) (some e))

end ErrorBoundaryDatabase

namespace UserService

/-- `UserService.getUser` from `error-handling-anti-patterns/testable.js`
(lines 101–121): the try block turns a missing document into a
`USER_NOT_FOUND` `UserError`; the catch block re-throws `UserError`s
unchanged and wraps anything else as a `GET_USER_ERROR` `UserError` with
the original error as cause. -/
def getUser (dbFindOne : Except JsError (Option User)) (userId : String) :
    Except JsError User :=
  let tryBlock : Except JsError User :=
    match dbFindOne with
    | .error e => .error e
    | .ok none =>
      .error (.userError ("User not found: " ++ userId) "USER_NOT_FOUND" none)
    | .ok (some user) => .ok user
  match tryBlock with
  | .ok user => .ok user
  | .error e =>
    if e.isUserError then .error e
    else .error (.userError ("Failed to get user: " ++ userId) "GET_USER_ERROR" (some e))

end UserService

/-- C5: `getUser` over the file's `Database.findOne` boundary returns the
found document, throws a `USER_NOT_FOUND` `UserError` exactly when the
lookup yields no user, wraps a database-layer error as a `GET_USER_ERROR`
`UserError` with the original error as cause, and never lets a
non-`UserError` escape. -/
theorem getUser_spec :
    ∀ (raw : Except JsError (Option User)) (userId : String),
      (∀ u, raw = .ok (some u) →
        UserService.getUser (ErrorBoundaryDatabase.findOne "users" raw) userId = .ok u)
      ∧ (UserService.getUser (ErrorBoundaryDatabase.findOne "users" raw) userId
            = .error (.userError ("User not found: " ++ userId) "USER_NOT_FOUND" none)
          ↔ raw = .ok none)
      ∧ (∀ e, raw = .error e →
          UserService.getUser (ErrorBoundaryDatabase.findOne "users" raw) userId
            = .error (.userError ("Failed to get user: " ++ userId) "GET_USER_ERROR"
                (some (.databaseError ("Failed to find document in " ++ "users") (some e)))))
      ∧ (∀ e', UserService.getUser (ErrorBoundaryDatabase.findOne "users" raw) userId
            = .error e' → e'.isUserError = true) := by
  intro raw userId
  match raw with
  | .ok (some u) =>
    refine ⟨fun v hv => ?_, ?_, fun e he => by exact absurd he (by simp), fun e' he' => ?_⟩
    · rw [Option.some_inj.mp (Except.ok.inj hv)]
      rfl
    · simp [UserService.getUser, ErrorBoundaryDatabase.findOne]
    · simp [UserService.getUser, ErrorBoundaryDatabase.findOne] at he'
  | .ok none =>
    refine ⟨fun v hv => by exact absurd (Except.ok.inj hv) (by simp), ?_,
      fun e he => by exact absurd he (by simp), fun e' he' => ?_⟩
    · simp [UserService.getUser, ErrorBoundaryDatabase.findOne, JsError.isUserError]
    · simp [UserService.getUser, ErrorBoundaryDatabase.findOne,
        JsError.isUserError] at he'
      rw [← he']
      rfl
  | .error e =>
    refine ⟨fun v hv => by exact absurd hv (by simp), ?_, fun e₀ he₀ => ?_, fun e' he' => ?_⟩
    · simp [UserService.getUser, ErrorBoundaryDatabase.findOne, JsError.isUserError]
    · rw [Except.error.inj he₀]
      rfl
    · simp [UserService.getUser, ErrorBoundaryDatabase.findOne,
        JsError.isUserError] at he'
      rw [← he']
      rfl

/-- Witness for C5 at concrete inputs: a driver failure surfaces as a
`GET_USER_ERROR` `UserError` whose cause chain keeps the original error. -/
theorem getUser_spec_witness :
    UserService.getUser
        (ErrorBoundaryDatabase.findOne "users" (.error (.other "connection lost"))) "u1"
      = .error (.userError ("Failed to get user: " ++ "u1") "GET_USER_ERROR"
          (some (.databaseError ("Failed to find document in " ++ "users")
            (some (.other "connection lost"))))) :=
  (getUser_spec (.error (.other "connection lost")) "u1").2.2.1
    (.other "connection lost") rfl

/-! ## Configuration snippet: `ConfigSchema` / `Config` / `ConfigManager`

Config values are JS values (`JsValue`), with JS truthiness and `typeof`.
A config object is modelled as a total map `String → JsValue` returning
`vundefined` at absent keys, matching `config[key]`. -/

inductive JsValue where
  | vundefined
  | vnull
  | vbool (b : Bool)
  | vnum (q : ℚ)
  | vstr (s : String)
  | vobj (fields : List (String × JsValue))

/-- JS truthiness of a value (`!value` is its negation). -/
def JsValue.truthy : JsValue → Bool
  | .vundefined => false
  | .vnull => false
  | .vbool b => b
  | .vnum q => decide (q ≠ 0)
  | .vstr s => decide (s ≠ "")
  | .vobj _ => true

/-- JS `typeof`; note `typeof null === 'object'`. -/
def JsValue.typeof : JsValue → String
  | .vundefined => "undefined"
  | .vnull => "object"
  | .vbool _ => "boolean"
  | .vnum _ => "number"
  | .vstr _ => "string"
  | .vobj _ => "object"

/-- Property access `value.k`; absent fields and non-objects give
`undefined` (the validators only dereference after an object check). -/
def JsValue.getField : JsValue → String → JsValue
  | .vobj fields, k => (fields.lookup k).getD .vundefined
  | _, _ => .vundefined

/-- The numeric value of a `vnum`, after a `typeof === 'number'` check. -/
def JsValue.asNum : JsValue → ℚ
  | .vnum q => q
  | _ => 0

/-- The string value of a `vstr`, after a `typeof === 'string'` check. -/
def JsValue.asStr : JsValue → String
  | .vstr s => s
  | _ => ""

/-- The `database` validator from `ConfigManager`'s schema (configuration
snippet, lines 593–603); `false` models a thrown validation error. -/
def databaseValidator (value : JsValue) : Bool :=
  if ¬ value.truthy ∨ value.typeof ≠ "object" then false
  else if ¬ (value.getField "url").truthy ∨ (value.getField "url").typeof ≠ "string" then
    false
  else if ¬ (value.getField "options").truthy
      ∨ (value.getField "options").typeof ≠ "object" then false
  else true

/-- The `api` validator (lines 604–620). -/
def apiValidator (value : JsValue) : Bool :=
  if ¬ value.truthy ∨ value.typeof ≠ "object" then false
  else if ¬ (value.getField "baseUrl").truthy
      ∨ (value.getField "baseUrl").typeof ≠ "string" then false
  else if ¬ (value.getField "apiKey").truthy
      ∨ (value.getField "apiKey").typeof ≠ "string" then false
  else if (value.getField "timeout").typeof ≠ "number"
      ∨ (value.getField "timeout").asNum ≤ 0 then false
  else if (value.getField "maxRetries").typeof ≠ "number"
      ∨ (value.getField "maxRetries").asNum < 0 then false
  else true

/-- The `cache` validator (lines 621–628). -/
def cacheValidator (value : JsValue) : Bool :=
  if ¬ value.truthy ∨ value.typeof ≠ "object" then false
  else if (value.getField "ttl").typeof ≠ "number"
      ∨ (value.getField "ttl").asNum ≤ 0 then false
  else true

/-- The `logger` validator (lines 629–640). -/
def loggerValidator (value : JsValue) : Bool :=
  if ¬ value.truthy ∨ value.typeof ≠ "object" then false
  else if ¬ (value.getField "level").truthy
      ∨ (value.getField "level").typeof ≠ "string" then false
  else if ¬ (["debug", "info", "warn", "error"].contains
      ((value.getField "level").asStr)) then false
  else true

/-- `ConfigSchema` (lines 547–565): a map from keys to validators. -/
structure ConfigSchema where
  schema : List (String × (JsValue → Bool))

/-- `ConfigSchema.validate` (lines 552–564): every key's validator must
accept `config[key]`; any failure is collected and thrown, so the call
succeeds (returns `true` here) exactly when all validators pass. -/
def ConfigSchema.validate (self : ConfigSchema) (config : String → JsValue) : Bool :=
  self.schema.all (fun kv => kv.2 (config kv.1))

/-- `Config` (lines 570–585): a schema plus the values frozen at
construction. -/
structure Config where
  schema : ConfigSchema
  values : String → JsValue

/-- The `Config` constructor (lines 571–575): runs `schema.validate(values)`
and then freezes a copy of `values`; a validation failure throws, modelled
by `none`. -/
def Config.construct (values : String → JsValue) (schema : ConfigSchema) :
    Option Config :=
  if schema.validate values then some ⟨schema, values⟩ else none

/-- `Config.get` (lines 577–579). -/
def Config.get (self : Config) (key : String) : JsValue :=
  self.values key

/-- The spread update `{ ...values, [key]: value }`. -/
def updateField (values : String → JsValue) (key : String) (value : JsValue) :
    String → JsValue :=
  fun k => if k = key then value else values k

/-- `Config.with` (lines 581–584; `with` is a Lean keyword, hence
`withValue`): the spread-updated values passed back through the validating
constructor. -/
def Config.withValue (self : Config) (key : String) (value : JsValue) :
    Option Config :=
  Config.construct (updateField self.values key value) self.schema

/-- The fixed four-key schema built in the `ConfigManager` constructor
(lines 590–642). -/
def managerSchema : ConfigSchema :=
  ⟨[("database", databaseValidator), ("api", apiValidator),
    ("cache", cacheValidator), ("logger", loggerValidator)]⟩

/-- `ConfigManager.createConfig` (lines 644–646). -/
def ConfigManager.createConfig (values : String → JsValue) : Option Config :=
  Config.construct values managerSchema

theorem config_construct_eq_some {values : String → JsValue}
    {schema : ConfigSchema} {c : Config}
    (h : Config.construct values schema = some c) :
    c.schema = schema ∧ c.values = values ∧ schema.validate values = true := by
  unfold Config.construct at h
  by_cases hv : schema.validate values = true
  · rw [if_pos hv, Option.some_inj] at h
    exact ⟨congrArg Config.schema h.symm, congrArg Config.values h.symm, hv⟩
  · rw [if_neg hv] at h
    exact Option.noConfusion h

/-- A concrete value map accepted by `managerSchema`, used by the witnesses. -/
def sampleConfigValues : String → JsValue :=
  fun k =>
    if k = "database" then
      .vobj [("url", .vstr "mongodb://localhost:27017/app"), ("options", .vobj [])]
    else if k = "api" then
      .vobj [("baseUrl", .vstr "https://api.example.com"),
        ("apiKey", .vstr "secret"), ("timeout", .vnum 5000), ("maxRetries", .vnum 3)]
    else if k = "cache" then .vobj [("ttl", .vnum 3600)]
    else if k = "logger" then .vobj [("level", .vstr "info")]
    else .vundefined

/-- C6: when the spread-updated values still satisfy the schema,
`Config.with` returns a new `Config` whose `get` at the updated key is the
new value and at every other key is the receiver's value; the receiver is
itself untouched (its `get` still reads the values frozen at its own
construction). -/
theorem config_withValue_frame :
    ∀ (c : Config) (key : String) (value : JsValue),
      c.schema.validate (updateField c.values key value) = true →
      ∃ c', c.withValue key value = some c'
        ∧ c'.get key = value
        ∧ (∀ j, j ≠ key → c'.get j = c.get j)
        ∧ (∀ j, c.get j = c.values j) := by
  intro c key value h
  refine ⟨⟨c.schema, updateField c.values key value⟩, ?_, ?_, ?_, fun j => rfl⟩
  · unfold Config.withValue Config.construct
    rw [if_pos h]
  · simp [Config.get, updateField]
  · intro j hj
    simp [Config.get, updateField, hj]

/-- Witness for C6: updating the `cache` entry of a concrete valid config
yields a config reading the new value at `cache` and the old ones
elsewhere. -/
theorem config_withValue_frame_witness :
    ∃ c', Config.withValue ⟨managerSchema, sampleConfigValues⟩ "cache"
          (.vobj [("ttl", .vnum 60)]) = some c'
      ∧ c'.get "cache" = .vobj [("ttl", .vnum 60)]
      ∧ (∀ j, j ≠ "cache" →
          c'.get j = Config.get ⟨managerSchema, sampleConfigValues⟩ j)
      ∧ (∀ j, Config.get ⟨managerSchema, sampleConfigValues⟩ j = sampleConfigValues j) :=
  config_withValue_frame ⟨managerSchema, sampleConfigValues⟩ "cache"
    (.vobj [("ttl", .vnum 60)]) (by decide)

/-- The configs reachable through `ConfigManager.createConfig` and
`Config.with` (C10). -/
inductive ProducedConfig : Config → Prop where
  | created : ∀ values c, ConfigManager.createConfig values = some c → ProducedConfig c
  | updated : ∀ c key value c', ProducedConfig c → c.withValue key value = some c' →
      ProducedConfig c'

/-- C10: every `Config` produced by `ConfigManager.createConfig` or
`Config.with` satisfies its schema — the validating constructor makes
schema conformance an invariant preserved by every operation that builds a
`Config`. -/
theorem producedConfig_satisfies_schema :
    ∀ c, ProducedConfig c → c.schema.validate c.values = true := by
  intro c hc
  induction hc with
  | created values c h =>
    obtain ⟨hs, hv, hval⟩ := config_construct_eq_some h
    rw [hs, hv]
    exact hval
  | updated c key value c' hc h ih =>
    obtain ⟨hs, hv, hval⟩ := config_construct_eq_some h
    rw [hs, hv]
    exact hval

/-- Witness for C10: the concrete sample config is produced by
`createConfig` and satisfies the manager schema. -/
theorem producedConfig_satisfies_schema_witness :
    ConfigSchema.validate managerSchema sampleConfigValues = true :=
  producedConfig_satisfies_schema ⟨managerSchema, sampleConfigValues⟩
    (.created sampleConfigValues ⟨managerSchema, sampleConfigValues⟩
      (by unfold ConfigManager.createConfig Config.construct
          rw [if_pos (by decide)]))

/-! ## `non-deterministic-anti-patterns/untestable.js`: the order queue

`addToQueue` pushes an order and calls `processQueue`; `processQueue`
returns at once when `this.isProcessing` is set, otherwise sets it and
drains `this.processingQueue` one `await this.processOrder(order)` at a
time, clearing the flag in `finally`.  The model is an interleaving
semantics: each constructor of `QueueStep` is one atomic segment, and the
segments are at least as fine-grained as the JS run-to-completion segments
between `await`s, so every interleaving the event loop can produce is among
the modelled ones.  Orders are identified by `Nat` ids. -/

/-- The phases of one `processQueue()` invocation: `entry` (called, the
`isProcessing` guard not yet run), `active` (past the guard: this call owns
the drain loop), `done` (returned). -/
inductive TaskState where
  | entry
  | active
  | done
deriving DecidableEq

/-- `this.isProcessing`, `this.processingQueue`, and the states of all
`processQueue` invocations made so far. -/
structure QueueState where
  isProcessing : Bool
  processingQueue : List Nat
  tasks : List TaskState

/-- The atomic steps: `addToQueue` pushes and spawns a `processQueue` call;
a spawned call runs its guard (bailing out when `isProcessing` is set,
claiming the loop otherwise); the owning call shifts one order per loop
iteration and awaits `processOrder` on it; on an empty queue the `finally`
block clears `isProcessing`; and when the awaited `processOrder` rejects
(it throws outside business hours), the loop aborts through the same
`finally`, clearing `isProcessing` with whatever orders are still
queued. -/
inductive QueueStep : QueueState → QueueState → Prop where
  | addToQueue (p : Bool) (q : List Nat) (ts : List TaskState) (o : Nat) :
      QueueStep ⟨p, q, ts⟩ ⟨p, q ++ [o], ts ++ [.entry]⟩
  | guardBusy (q : List Nat) (l r : List TaskState) :
      QueueStep ⟨true, q, l ++ .entry :: r⟩ ⟨true, q, l ++ .done :: r⟩
  | guardFree (q : List Nat) (l r : List TaskState) :
      QueueStep ⟨false, q, l ++ .entry :: r⟩ ⟨true, q, l ++ .active :: r⟩
  | drainOne (p : Bool) (q : List Nat) (o : Nat) (l r : List TaskState) :
      QueueStep ⟨p, o :: q, l ++ .active :: r⟩ ⟨p, q, l ++ .active :: r⟩
  | finish (p : Bool) (l r : List TaskState) :
      QueueStep ⟨p, [], l ++ .active :: r⟩ ⟨false, [], l ++ .done :: r⟩
  | abort (p : Bool) (q : List Nat) (l r : List TaskState) :
      QueueStep ⟨p, q, l ++ .active :: r⟩ ⟨false, q, l ++ .done :: r⟩

/-- States reachable from a fresh `OrderProcessor`
(`isProcessing = false`, empty queue, no calls). -/
inductive QueueReachable : QueueState → Prop where
  | init : QueueReachable ⟨false, [], []⟩
  | step {s s'} : QueueReachable s → QueueStep s s' → QueueReachable s'

/-- How many `processQueue` invocations currently own the drain loop. -/
def countActive : List TaskState → Nat
  | [] => 0
  | .active :: ts => countActive ts + 1
  | .entry :: ts => countActive ts
  | .done :: ts => countActive ts

theorem countActive_append (l r : List TaskState) :
    countActive (l ++ r) = countActive l + countActive r := by
  induction l with
  | nil => simp [countActive]
  | cons t l ih => cases t <;> (simp [countActive, ih]; try omega)

/-- C7: in every reachable interleaving of `addToQueue` / `processQueue`
calls, at most one drain loop is active — the `isProcessing` guard gives
mutual exclusion, and the flag is an exact ownership token (no active loop
when it is clear). -/
theorem processQueue_mutual_exclusion :
    ∀ s, QueueReachable s →
      countActive s.tasks ≤ 1
        ∧ (s.isProcessing = false → countActive s.tasks = 0) := by
  intro s hs
  induction hs with
  | init => exact ⟨by simp [countActive], fun _ => rfl⟩
  | step hr hstep ih =>
    cases hstep with
    | addToQueue p q ts o =>
      refine ⟨?_, fun hp => ?_⟩
      · simp only [countActive_append]
        simpa [countActive] using ih.1
      · simp only [countActive_append]
        simpa [countActive] using ih.2 hp
    | guardBusy q l r =>
      refine ⟨?_, fun hp => ?_⟩
      · have := ih.1
        simp only [countActive_append, countActive] at this ⊢
        omega
      · exact absurd hp (by simp)
    | guardFree q l r =>
      have h0 := ih.2 rfl
      simp only [countActive_append, countActive] at h0
      refine ⟨?_, fun hp => ?_⟩
      · simp only [countActive_append, countActive]
        omega
      · exact absurd hp (by simp)
    | drainOne p q o l r =>
      exact ih
    | finish p l r =>
      have h1 := ih.1
      simp only [countActive_append, countActive] at h1
      refine ⟨?_, fun _ => ?_⟩ <;>
      · simp only [countActive_append, countActive]
        omega
    | abort p q l r =>
      have h1 := ih.1
      simp only [countActive_append, countActive] at h1
      refine ⟨?_, fun _ => ?_⟩ <;>
      · simp only [countActive_append, countActive]
        omega

/-- Witness for C7: two orders are enqueued, the first `processQueue` call
claims the loop, the second bails on the guard, the first order is shifted
and its `processOrder` rejects — the loop aborts with the second order
still queued, the flag clear, and no active loop. -/
theorem processQueue_mutual_exclusion_witness :
    countActive [TaskState.done, TaskState.done] = 0 := by
  have h1 : QueueReachable ⟨false, [0], [.entry]⟩ :=
    .step .init (QueueStep.addToQueue false [] [] 0)
  have h2 : QueueReachable ⟨false, [0, 1], [.entry, .entry]⟩ :=
    .step h1 (QueueStep.addToQueue false [0] [.entry] 1)
  have h3 : QueueReachable ⟨true, [0, 1], [.active, .entry]⟩ :=
    .step h2 (QueueStep.guardFree [0, 1] [] [.entry])
  have h4 : QueueReachable ⟨true, [0, 1], [.active, .done]⟩ :=
    .step h3 (QueueStep.guardBusy [0, 1] [.active] [])
  have h5 : QueueReachable ⟨true, [1], [.active, .done]⟩ :=
    .step h4 (QueueStep.drainOne true [1] 0 [] [.done])
  have h6 : QueueReachable ⟨false, [1], [.done, .done]⟩ :=
    .step h5 (QueueStep.abort true [1] [] [.done])
  exact (processQueue_mutual_exclusion ⟨false, [1], [.done, .done]⟩ h6).2 rfl
